import Mathlib

/-
Verification of the meetingCaster backend (Go) against its natural-language
specification.  The Go source in src/backend is shallowly embedded below:
pure computations become Lean functions, the sqlite table becomes a list of
rows, the in-memory maps (ActiveCasts, VideoGenInProgress) become association
lists and string lists, wall-clock instants become whole seconds (Int) since
the epoch (the persisted format "2006-01-02 15:04:05" has one-second
granularity, and its lexicographic SQL comparison agrees with the numeric
order of instants), and the lock usage of the cast and generation paths is
embedded as explicit event traces.
-/

namespace MeetingCaster

/-- Model of Go time.Time as used here: an absolute instant in whole seconds
since the Unix epoch together with the location attached to the value.  The
location does not change the instant, only how the value would be formatted;
the method UTC() replaces the location by UTC and keeps the instant. -/
structure GoTime where
  epoch : Int
  loc : String
deriving Repr, DecidableEq

/-- Go t.UTC(): same instant, location forced to UTC. -/
def GoTime.utc (t : GoTime) : GoTime := ⟨t.epoch, "UTC"⟩

/-- Abstraction of a timestamp string by the outcome of each layout that
parseTimeInUTC (main.go, lines 146-161) tries on it, in the order tried:
rfc3339 is the result of time.Parse(time.RFC3339, s); zLayout is the result
of time.Parse("2006-01-02T15:04:05Z", s); spaceLayout is the wall-clock
reading of the layout "2006-01-02 15:04:05", which ParseInLocation with
time.UTC turns into exactly that instant carrying the UTC location.  A field
is none when the Go parser rejects the string for that layout. -/
structure TimeStr where
  rfc3339 : Option GoTime
  zLayout : Option GoTime
  spaceLayout : Option Int
deriving Repr, DecidableEq

/-- Embedding of parseTimeInUTC (main.go, lines 146-161): try RFC3339, then
the "Z"-suffixed layout, then the space-separated layout interpreted in UTC;
the first two successes are normalized with UTC(), the last already carries
UTC; if all fail the first error is returned (modelled as none). -/
def parseTimeInUTC (s : TimeStr) : Option GoTime :=
  match s.rfc3339 with
  | some t => some t.utc
  | none =>
    match s.zLayout with
    | some t => some t.utc
    | none =>
      match s.spaceLayout with
      | some w => some ⟨w, "UTC"⟩
      | none => none

/-- A persisted row of the notifications table (main.go, lines 126-136),
with the two DATETIME columns already decoded to instants. -/
structure NotificationRow where
  id : String
  message : String
  start_time : Int
  end_time : Int
  device : String
  status : String
  repeat_count : Int
deriving Repr, DecidableEq

/-- The JSON request body of POST /api/notifications (main.go, lines
170-176), with the two timestamp strings abstracted by the result of
time.Parse(time.RFC3339, _) on them: some instant when the string parses,
none when it does not. -/
structure CreateRequest where
  message : String
  device : String
  start_time : Option Int
  end_time : Option Int
  repeat_count : Int
deriving Repr, DecidableEq

/-- Outcome of the createNotification handler: an HTTP error status with its
message, or the 201 response carrying the row that was inserted. -/
inductive CreateResult where
  | badRequest (code : Nat) (msg : String)
  | created (row : NotificationRow)
deriving Repr, DecidableEq

/-- Embedding of createNotification (main.go, lines 169-237): reject on an
unparsable start_time, then on an unparsable end_time; clamp repeat_count
below 1 to 1; then insert the row with status "pending" and return 201.
There is no comparison of start_time against end_time anywhere in the
handler.  Database failures (prepare and exec errors) are environmental and
outside this model; newId stands for the freshly generated UUID. -/
def createNotification (newId : String) (req : CreateRequest) : CreateResult :=
  match req.start_time with
  | none => .badRequest 400 "Invalid start_time format"
  | some startTime =>
    match req.end_time with
    | none => .badRequest 400 "Invalid end_time format"
    | some endTime =>
      let repeatCount := if req.repeat_count < 1 then 1 else req.repeat_count
      .created
        { id := newId
          message := req.message
          start_time := startTime
          end_time := endTime
          device := req.device
          status := "pending"
          repeat_count := repeatCount }

/-- Embedding of the client-side guard in handleSubmit (frontend script,
lines 104-112): the form submits the request only when a device is selected
and the ISO start string is strictly below the ISO end string; since
toISOString output compares lexicographically like the instants it denotes,
the comparison is on instants. -/
def handleSubmitSends (device : String) (start_time end_time : Int) : Bool :=
  !(device == "") && decide (start_time < end_time)

/-- Embedding of the duration computation shared by the pre-generation path
(scheduler.go, lines 224-228) and the on-demand video path (main.go, lines
544-547): duration := int(end.Sub(start).Seconds()), exact on whole-second
instants, then the fallback: if duration < 1 it becomes 10. -/
def videoDuration (startTime endTime : Int) : Int :=
  let duration := endTime - startTime
  if duration < 1 then 10 else duration

/-- Timing shape of the HLS artifact produced by generateNotificationVideo
(image.go, lines 217-316): the duration of the video stream, the duration of
the audio stream when one is muxed, and the duration of the muxed artifact,
which is that of its longest stream since the ffmpeg command sets no output
-t and no -shortest. -/
structure HlsArtifact where
  videoStreamSeconds : Int
  audioStreamSeconds : Option Int
  totalSeconds : Int
deriving Repr, DecidableEq

/-- Embedding of generateNotificationVideo (image.go, lines 217-316),
restricted to stream timing; narrationSeconds is the length of the audio
file at audioPath.  With audio (lines 240-273): the looped image input is
limited to durationSeconds by its -t flag, the narration input carries no
limit, the lavfi anullsrc silence input is limited to durationSeconds, and
the filter [1:a][2:a]concat appends that silence after the whole narration,
so the audio stream lasts narrationSeconds + durationSeconds; with no output
-t and no -shortest the muxed artifact lasts as long as its longest stream.
Without audio (lines 276-297): only the image stream of durationSeconds.
The encoding itself is delegated to ffmpeg, an external collaborator. -/
def generateNotificationVideo (imagePath notificationID : String)
    (durationSeconds : Int) (audioPath : String) (narrationSeconds : Int) :
    HlsArtifact :=
  if audioPath == "" then
    { videoStreamSeconds := durationSeconds
      audioStreamSeconds := none
      totalSeconds := durationSeconds }
  else
    { videoStreamSeconds := durationSeconds
      audioStreamSeconds := some (narrationSeconds + durationSeconds)
      totalSeconds := max durationSeconds (narrationSeconds + durationSeconds) }

/-- Outcome of one content-preparation job, the closure body in
preGenerateVideosForPendingNotifications (scheduler.go, lines 216-263):
the image step may fail (early return), TTS may fail (the job continues
without audio), the video step may fail (early return), the job may panic
(the deferred cleanup still runs while unwinding, and the recover installed
at lines 147-151 stops the panic), or every step succeeds. -/
inductive PipelineOutcome where
  | imageFail
  | videoFail
  | panicked
  | okNoAudio
  | ok
deriving Repr, DecidableEq

/-- Result of offering one notification to the pre-generation scan:
the VideoGenInProgress set afterwards, whether the pipeline job actually
ran, and whether it produced the playlist. -/
structure GenStepResult where
  inProgress : List String
  invoked : Bool
  artifactProduced : Bool
deriving Repr, DecidableEq

/-- Embedding of the generation closure (scheduler.go, lines 216-263) run
with the in-progress mark already set: the deferred delete (lines 218-222)
removes the mark on every exit path, including the early returns of the
image and video failures and the unwinding of a panic. -/
def generateClosure (inProgress : List String) (id : String)
    (o : PipelineOutcome) : GenStepResult :=
  match o with
  | .imageFail => ⟨inProgress.erase id, true, false⟩
  | .videoFail => ⟨inProgress.erase id, true, false⟩
  | .panicked => ⟨inProgress.erase id, true, false⟩
  | .okNoAudio => ⟨inProgress.erase id, true, true⟩
  | .ok => ⟨inProgress.erase id, true, true⟩

/-- Embedding of the per-row guard of the pre-generation scan (scheduler.go,
lines 197-263): skip when the playlist already exists; under VideoGenMutex,
skip when the id is already marked in progress, otherwise mark it and run
the generation closure. -/
def preGenerateOne (inProgress : List String) (id : String)
    (playlistExists : Bool) (o : PipelineOutcome) : GenStepResult :=
  if playlistExists then ⟨inProgress, false, false⟩
  else if inProgress.contains id then ⟨inProgress, false, false⟩
  else generateClosure (id :: inProgress) id o

/-- A live cast session (scheduler.go, lines 283-291), restricted to the
fields the control flow reads: the id, the device, and the Active flag that
stopCast checks and clears under the session lock. -/
structure CastSession where
  notificationID : String
  device : String
  active : Bool
deriving Repr, DecidableEq

/-- The application state touched by the scheduler and the session manager:
the persisted notifications table, the ActiveCasts map (as an association
list keyed by notification id), the VideoGenInProgress set, and the set of
ids whose ./data/chunks/<id>/playlist.m3u8 file exists on disk. -/
structure AppState where
  db : List NotificationRow
  activeCasts : List (String × CastSession)
  inProgress : List String
  artifacts : List String
deriving Repr, DecidableEq

/-- Environmental outcomes of the external collaborators one startCast call
consults: whether getDevice resolves the device name, whether ip.GetLANIp
succeeds, and whether client.PlayMedia succeeds. -/
structure CastEnv where
  deviceFound : Bool
  ipOk : Bool
  playOk : Bool
deriving Repr, DecidableEq

/-- The error classes startCast can return (scheduler.go, lines 377-454). -/
inductive StartCastError where
  | alreadyActive
  | deviceNotFound
  | ipFailed
  | playFailed
deriving Repr, DecidableEq

/-- Embedding of UPDATE notifications SET status = ? WHERE id = ?. -/
def setStatus (db : List NotificationRow) (id status : String) :
    List NotificationRow :=
  db.map (fun n => if n.id == id then { n with status := status } else n)

/-- The persisted status of the notification with the given id, when a row
for it exists. -/
def statusOf (db : List NotificationRow) (id : String) : Option String :=
  (db.find? (fun n => n.id == id)).map (fun n => n.status)

/-- Embedding of startCast (scheduler.go, lines 377-454).  Under CastMutex:
fail if a session is already recorded for the id; then resolve the device,
the local IP, and play the media, failing without any state change if any of
those fail (the cancellation context created before PlayMedia is cancelled
on the PlayMedia failure path and no session is stored); on success record
the session in ActiveCasts and persist status "active".  The error of the
status UPDATE itself is only logged, so the success path always returns
nil. -/
def startCast (st : AppState) (notifID deviceName : String) (env : CastEnv) :
    AppState × Option StartCastError :=
  match st.activeCasts.lookup notifID with
  | some _ => (st, some .alreadyActive)
  | none =>
    if !env.deviceFound then (st, some .deviceNotFound)
    else if !env.ipOk then (st, some .ipFailed)
    else if !env.playOk then (st, some .playFailed)
    else
      ({ st with
          activeCasts := (notifID, ⟨notifID, deviceName, true⟩) :: st.activeCasts
          db := setStatus st.db notifID "active" }, none)

/-- Result of one stopCast call: the state afterwards, the returned error,
and how many teardown sequences (cancellation of the context, removal from
ActiveCasts, persisting "completed") were performed. -/
structure StopResult where
  state : AppState
  err : Option String
  teardowns : Nat
deriving Repr, DecidableEq

/-- Embedding of stopCast (scheduler.go, lines 456-494).  Under CastMutex:
return nil at once when no session is recorded for the id; return nil when
the recorded session is already marked inactive; otherwise flip the active
flag, cancel the context, wait the 1.5s settle delay, delete the session
from ActiveCasts, persist status "completed", and return nil.  Every path
returns nil. -/
def stopCast (st : AppState) (notifID : String) : StopResult :=
  match st.activeCasts.lookup notifID with
  | none => ⟨st, none, 0⟩
  | some session =>
    if !session.active then ⟨st, none, 0⟩
    else
      ⟨{ st with
          activeCasts := st.activeCasts.filter (fun p => !(p.1 == notifID))
          db := setStatus st.db notifID "completed" }, none, 1⟩

/-- Row filter of the activation query (scheduler.go, lines 27-33): status
is pending, start_time <= now, end_time > now.  The SQL compares the
DATETIME strings lexicographically, which agrees with the numeric order of
the instants they encode. -/
def activationFilter (now : Int) (n : NotificationRow) : Bool :=
  n.status == "pending" && decide (n.start_time ≤ now) && decide (now < n.end_time)

/-- Row filter of the deactivation query (scheduler.go, lines 93-97):
status is active and end_time <= now. -/
def deactivationFilter (now : Int) (n : NotificationRow) : Bool :=
  n.status == "active" && decide (n.end_time ≤ now)

/-- Row filter of the pre-generation query (scheduler.go, lines 156-162):
status is pending and start_time lies in (now, now + 5 minutes]. -/
def preGenFilter (now : Int) (n : NotificationRow) : Bool :=
  n.status == "pending" && decide (now < n.start_time)
    && decide (n.start_time ≤ now + 300)

/-- Per-tick environment: the collaborator outcomes for each id a cast might
be started for, and the pipeline outcome for each id a generation job might
run for. -/
structure TickEnv where
  castEnv : String → CastEnv
  outcome : String → PipelineOutcome

/-- One row of the pre-generation scan body (scheduler.go, lines 169-263):
skip when the playlist exists, otherwise run the guarded generation job; a
produced playlist appears on disk.  The notifications table is never
touched. -/
def preGenRow (outcome : String → PipelineOutcome) (st : AppState)
    (n : NotificationRow) : AppState :=
  let r := preGenerateOne st.inProgress n.id (st.artifacts.contains n.id) (outcome n.id)
  { st with
      inProgress := r.inProgress
      artifacts := if r.artifactProduced then n.id :: st.artifacts else st.artifacts }

/-- The pre-generation scan (scheduler.go, lines 145-265): fold the per-row
body over the rows selected by the pre-generation query. -/
def preGenScan (outcome : String → PipelineOutcome) (now : Int)
    (st : AppState) : AppState :=
  (st.db.filter (preGenFilter now)).foldl (preGenRow outcome) st

/-- One row of the activation scan body (scheduler.go, lines 40-90):
re-check the window (now at or after start, strictly before end), then skip
when the playlist file is absent (retried next tick), otherwise call
startCast; a failed start is only logged. -/
def processActivationRow (env : TickEnv) (now : Int) (st : AppState)
    (n : NotificationRow) : AppState :=
  if decide (n.start_time ≤ now) && decide (now < n.end_time) then
    if st.artifacts.contains n.id then
      (startCast st n.id n.device (env.castEnv n.id)).1
    else st
  else st

/-- The activation scan: fold the per-row body over the rows selected by the
activation query. -/
def activationScan (env : TickEnv) (now : Int) (st : AppState) : AppState :=
  (st.db.filter (activationFilter now)).foldl (processActivationRow env now) st

/-- One row of the deactivation scan body (scheduler.go, lines 104-140):
re-check that the end time is reached and call stopCast; a failed stop is
only logged. -/
def processDeactivationRow (now : Int) (st : AppState)
    (n : NotificationRow) : AppState :=
  if decide (n.end_time ≤ now) then (stopCast st n.id).state else st

/-- The deactivation scan: fold the per-row body over the rows selected by
the deactivation query. -/
def deactivationScan (now : Int) (st : AppState) : AppState :=
  (st.db.filter (deactivationFilter now)).foldl (processDeactivationRow now) st

/-- Embedding of one scheduler tick, checkAndProcessNotifications
(scheduler.go, lines 19-141): dispatch the pre-generation scan (in Go a
goroutine; modelled as running first, which is sound for status claims since
it never writes the table), then the activation scan, then the deactivation
scan, all against one clock reading taken at the top of the tick. -/
def checkAndProcessNotifications (env : TickEnv) (now : Int)
    (st : AppState) : AppState :=
  deactivationScan now (activationScan env now (preGenScan env.outcome now st))

/-- Events of the lock-usage traces of the session manager and the
generation deduplicator.  mapCheck stands for reading or writing the guarded
metadata (a map lookup, insert, delete, or flag flip); the remaining events
are the long-running operations the spec discusses. -/
inductive CastEvent where
  | lockAcquire (lock : String)
  | lockRelease (lock : String)
  | mapCheck
  | deviceDiscovery
  | serverStartWait
  | playMedia
  | settleDelay
  | dbWrite
  | pipelineWork
deriving Repr, DecidableEq

/-- The long-running operations: the 5s mDNS device discovery, the 1s wait
for the HLS server, the PlayMedia network call, the 1.5s settle delay, and
the rendering/synthesis/encoding pipeline work. -/
def longRunning : CastEvent → Bool
  | .deviceDiscovery => true
  | .serverStartWait => true
  | .playMedia => true
  | .settleDelay => true
  | .pipelineWork => true
  | _ => false

/-- Event trace of one startCast call (scheduler.go, lines 377-454):
CastMutex is taken on entry and released by defer on every return.  The
alreadyActive parameter selects the early-error path; the env parameter
selects how far the success path gets.  The quick local-IP lookup is folded
into the surrounding events. -/
def startCastTrace (alreadyActive : Bool) (env : CastEnv) : List CastEvent :=
  [.lockAcquire "CastMutex", .mapCheck]
    ++ (if alreadyActive then [] else
        [.deviceDiscovery]
          ++ (if !env.deviceFound then [] else
              [.serverStartWait, .playMedia]
                ++ (if !env.playOk then [] else [.mapCheck, .dbWrite])))
    ++ [.lockRelease "CastMutex"]

/-- Event trace of one stopCast call (scheduler.go, lines 456-494):
CastMutex is taken on entry and released by defer on every return; when a
session is recorded and active, the flag flip, the cancellation, the 1.5s
settle delay, the map delete and the status write all happen under it. -/
def stopCastTrace (hasSession : Bool) : List CastEvent :=
  [.lockAcquire "CastMutex", .mapCheck]
    ++ (if hasSession then [.mapCheck, .settleDelay, .mapCheck, .dbWrite] else [])
    ++ [.lockRelease "CastMutex"]

/-- Event trace of one guarded generation job (scheduler.go, lines 204-263):
VideoGenMutex is taken only around the in-progress check/insert and, inside
the deferred cleanup, around the delete; the pipeline work itself runs with
the mutex released. -/
def preGenTrace (alreadyInProgress : Bool) : List CastEvent :=
  [.lockAcquire "VideoGenMutex", .mapCheck, .lockRelease "VideoGenMutex"]
    ++ (if alreadyInProgress then [] else
        [.pipelineWork, .lockAcquire "VideoGenMutex", .mapCheck,
         .lockRelease "VideoGenMutex"])

/-- Scans a trace with the current hold depth of the named lock and reports
whether some long-running event occurs while the lock is held. -/
def heldViolation (lock : String) : List CastEvent → Nat → Bool
  | [], _ => false
  | .lockAcquire l :: rest, d =>
    heldViolation lock rest (if l == lock then d + 1 else d)
  | .lockRelease l :: rest, d =>
    heldViolation lock rest (if l == lock then d - 1 else d)
  | e :: rest, d => (decide (0 < d) && longRunning e) || heldViolation lock rest d

/-! Helper lemmas about the session table and the persisted statuses. -/

theorem lookup_filter_self (l : List (String × CastSession)) (id : String) :
    (l.filter (fun p => !(p.1 == id))).lookup id = none := by
  induction l with
  | nil => rfl
  | cons p t ih =>
    rw [List.filter_cons]
    by_cases h : p.1 = id
    · have hb : (p.1 == id) = true := by simp [h]
      rw [hb]
      exact ih
    · have hb : (p.1 == id) = false := by simp [h]
      have hb2 : (id == p.1) = false := by
        simp only [beq_eq_false_iff_ne, ne_eq]
        exact fun hc => h hc.symm
      rw [hb]
      show List.lookup id ((p.1, p.2) :: _) = none
      simp only [List.lookup, hb2]
      exact ih

theorem find?_setStatus_self (db : List NotificationRow) (id s : String) :
    (setStatus db id s).find? (fun n => n.id == id)
      = (db.find? (fun n => n.id == id)).map (fun n => { n with status := s }) := by
  induction db with
  | nil => rfl
  | cons n t ih =>
    by_cases h : n.id = id
    · have h1 : setStatus (n :: t) id s = { n with status := s } :: setStatus t id s := by
        simp [setStatus, h]
      rw [h1, List.find?_cons_of_pos _ (by simp [h]),
        List.find?_cons_of_pos _ (by simp [h])]
      rfl
    · have h1 : setStatus (n :: t) id s = n :: setStatus t id s := by
        simp [setStatus, h]
      rw [h1, List.find?_cons_of_neg _ (by simp [h]),
        List.find?_cons_of_neg _ (by simp [h])]
      exact ih

theorem statusOf_setStatus_ne (db : List NotificationRow) (a id s : String)
    (h : a ≠ id) : statusOf (setStatus db a s) id = statusOf db id := by
  induction db with
  | nil => rfl
  | cons n t ih =>
    by_cases hn : n.id = id
    · have hna : ¬(n.id = a) := fun hc => h (hn ▸ hc).symm
      have h1 : setStatus (n :: t) a s = n :: setStatus t a s := by
        simp [setStatus, hna]
      rw [statusOf, h1, List.find?_cons_of_pos _ (by simp [hn]),
        statusOf, List.find?_cons_of_pos _ (by simp [hn])]
    · by_cases hna : n.id = a
      · have h1 : setStatus (n :: t) a s = { n with status := s } :: setStatus t a s := by
          simp [setStatus, hna]
        rw [statusOf, h1, List.find?_cons_of_neg _ (by simp [hn]),
          statusOf, List.find?_cons_of_neg _ (by simp [hn])]
        exact ih
      · have h1 : setStatus (n :: t) a s = n :: setStatus t a s := by
          simp [setStatus, hna]
        rw [statusOf, h1, List.find?_cons_of_neg _ (by simp [hn]),
          statusOf, List.find?_cons_of_neg _ (by simp [hn])]
        exact ih

theorem startCast_artifacts (st : AppState) (a b : String) (env : CastEnv) :
    ((startCast st a b env).1).artifacts = st.artifacts := by
  cases h : st.activeCasts.lookup a <;> simp [startCast, h] <;> split_ifs <;> rfl

theorem startCast_inProgress (st : AppState) (a b : String) (env : CastEnv) :
    ((startCast st a b env).1).inProgress = st.inProgress := by
  cases h : st.activeCasts.lookup a <;> simp [startCast, h] <;> split_ifs <;> rfl

theorem startCast_statusOf_ne (st : AppState) (a b id : String) (env : CastEnv)
    (h : a ≠ id) :
    statusOf ((startCast st a b env).1).db id = statusOf st.db id := by
  cases hl : st.activeCasts.lookup a
  · simp only [startCast, hl]
    split_ifs <;> first
      | rfl
      | exact statusOf_setStatus_ne st.db a id "active" h
  · simp [startCast, hl]

theorem stopCast_statusOf_ne (st : AppState) (a id : String) (h : a ≠ id) :
    statusOf ((stopCast st a).state).db id = statusOf st.db id := by
  cases hl : st.activeCasts.lookup a with
  | none => simp [stopCast, hl]
  | some sess =>
    simp only [stopCast, hl]
    split_ifs <;> first
      | rfl
      | exact statusOf_setStatus_ne st.db a id "completed" h

/-! Claim C1. -/

/-- C1 counterexample: a createNotification request whose parsed start time
equals its parsed end time (both the instant 100) is not rejected; the
handler answers 201 and a row is persisted, so the claimed start < end
enforcement at creation does not exist in the handler. -/
theorem C1_counterexample :
    createNotification "n1" ⟨"m", "d", some 100, some 100, 1⟩
      = .created ⟨"n1", "m", 100, 100, "d", "pending", 1⟩ := rfl

/-- C1, amended: createNotification performs no comparison of the parsed
start and end times.  Every request whose two timestamps parse is accepted
and persisted with status "pending", even when start is at or after end; the
start < end check lives only in the browser form, which refuses to submit
such a request. -/
theorem C1_no_start_end_validation (newId : String) (req : CreateRequest)
    (s e : Int) (hs : req.start_time = some s) (he : req.end_time = some e)
    (hwin : e ≤ s) (hrc : 1 ≤ req.repeat_count) :
    createNotification newId req
      = .created { id := newId, message := req.message, start_time := s,
                   end_time := e, device := req.device, status := "pending",
                   repeat_count := req.repeat_count }
    ∧ handleSubmitSends req.device s e = false := by
  have hno : ¬(req.repeat_count < 1) := by omega
  have hlt : ¬(s < e) := by omega
  constructor
  · simp [createNotification, hs, he, hno]
  · simp [handleSubmitSends, hlt]

/-- C1 witness: the amended theorem evaluated at the concrete request used
in the counterexample. -/
theorem C1_witness :
    createNotification "n1" ⟨"m", "d", some 100, some 100, 1⟩
      = .created ⟨"n1", "m", 100, 100, "d", "pending", 1⟩
    ∧ handleSubmitSends "d" 100 100 = false :=
  C1_no_start_end_validation "n1" ⟨"m", "d", some 100, some 100, 1⟩ 100 100
    rfl rfl (le_refl 100) (le_refl 1)

/-! Claim C2. -/

/-- C2: for every notification id, a pre-generation job is refused while the
id is marked in progress (so at most one job per id is in flight), and when
the id is free, the in-progress mark taken by the job is gone again after
the job for every pipeline outcome, including the failures of the image and
video steps and a panic inside the job (the deferred delete runs while
unwinding); the set is restored exactly to its previous value. -/
theorem C2_dedup_release_on_all_paths (S : List String) (id : String)
    (pe : Bool) (o : PipelineOutcome) :
    (id ∈ S → (preGenerateOne S id pe o).invoked = false
        ∧ (preGenerateOne S id pe o).inProgress = S)
    ∧ (id ∉ S →
        (preGenerateOne S id pe o).inProgress = S
        ∧ id ∉ (preGenerateOne S id pe o).inProgress) := by
  constructor
  · intro h
    cases pe <;> simp [preGenerateOne, h]
  · intro h
    cases pe
    · cases o <;>
        simp [preGenerateOne, h, generateClosure, List.erase_cons_head]
    · simp [preGenerateOne, h]

/-- C2 witness: with "a" already marked, the job for "a" does not run; with
nothing marked, a panicking job for "a" still leaves the mark cleared. -/
theorem C2_witness :
    (preGenerateOne ["a"] "a" false .panicked).invoked = false
    ∧ (preGenerateOne [] "a" false .panicked).inProgress = []
    ∧ "a" ∉ (preGenerateOne [] "a" false .panicked).inProgress :=
  ⟨((C2_dedup_release_on_all_paths ["a"] "a" false .panicked).1 (by decide)).1,
   ((C2_dedup_release_on_all_paths [] "a" false .panicked).2 (by decide)).1,
   ((C2_dedup_release_on_all_paths [] "a" false .panicked).2 (by decide)).2⟩

/-! Claim C3. -/

/-- C3: startCast is exclusive and failure-safe.  When a session is already
recorded for the id, the call returns the already-active error and the whole
state — in particular the recorded session — is untouched; and whenever the
call returns any error (session exists, device resolution failure, local-IP
failure, or media-play failure), the state is exactly the input state, so no
session is recorded and the persisted status is unchanged (a pending row
stays pending). -/
theorem C3_startCast_exclusive (st : AppState) (notifID deviceName : String)
    (env : CastEnv) :
    (∀ sess, st.activeCasts.lookup notifID = some sess →
        startCast st notifID deviceName env = (st, some .alreadyActive))
    ∧ (∀ err, (startCast st notifID deviceName env).2 = some err →
        (startCast st notifID deviceName env).1 = st) := by
  cases hl : st.activeCasts.lookup notifID with
  | some s0 =>
    refine ⟨fun sess _ => by simp [startCast, hl], fun err _ => by simp [startCast, hl]⟩
  | none =>
    constructor
    · intro sess hs
      exact Option.noConfusion hs
    · intro err h
      simp only [startCast, hl] at h ⊢
      split_ifs at h ⊢ <;> rfl

/-- C3 witness: the exclusivity half on a state with a recorded session for
n1, and the failure half on a fresh state where PlayMedia fails. -/
theorem C3_witness :
    startCast ⟨[], [("n1", ⟨"n1", "d", true⟩)], [], []⟩ "n1" "d" ⟨true, true, true⟩
      = (⟨[], [("n1", ⟨"n1", "d", true⟩)], [], []⟩, some .alreadyActive)
    ∧ (startCast ⟨[⟨"n1", "m", 0, 60, "d", "pending", 1⟩], [], [], []⟩ "n1" "d"
          ⟨true, true, false⟩).1
        = ⟨[⟨"n1", "m", 0, 60, "d", "pending", 1⟩], [], [], []⟩ :=
  ⟨(C3_startCast_exclusive ⟨[], [("n1", ⟨"n1", "d", true⟩)], [], []⟩ "n1" "d"
      ⟨true, true, true⟩).1 ⟨"n1", "d", true⟩ rfl,
   (C3_startCast_exclusive ⟨[⟨"n1", "m", 0, 60, "d", "pending", 1⟩], [], [], []⟩
      "n1" "d" ⟨true, true, false⟩).2 .playFailed rfl⟩

/-! Claim C4. -/

/-- C4: stopCast is idempotent.  Every call returns nil; a call with no
recorded session for the id is a no-op with zero teardowns; and when a
recorded active session exists, the first call performs exactly one teardown
(one cancellation with its removal from the session table) and persists
status "completed" for the row, while a repeated call performs zero further
teardowns and changes nothing.  Concurrent duplicate calls are serialized by
CastMutex, which the code holds for the whole body, so the sequential
composition modelled here covers them. -/
theorem C4_stopCast_idempotent (st : AppState) (id : String) :
    (stopCast st id).err = none
    ∧ (st.activeCasts.lookup id = none → stopCast st id = ⟨st, none, 0⟩)
    ∧ (∀ sess, st.activeCasts.lookup id = some sess → sess.active = true →
        (stopCast st id).teardowns = 1
        ∧ (stopCast (stopCast st id).state id).teardowns = 0
        ∧ (stopCast (stopCast st id).state id).state = (stopCast st id).state
        ∧ ((st.db.find? (fun n => n.id == id)).isSome = true →
            statusOf (stopCast st id).state.db id = some "completed")) := by
  refine ⟨?_, ?_, ?_⟩
  · cases hl : st.activeCasts.lookup id with
    | none => simp [stopCast, hl]
    | some sess => cases hsa : sess.active <;> simp [stopCast, hl, hsa]
  · intro hl
    simp [stopCast, hl]
  · intro sess hl ha
    have hstop : stopCast st id =
        ⟨{ st with
            activeCasts := st.activeCasts.filter (fun p => !(p.1 == id))
            db := setStatus st.db id "completed" }, none, 1⟩ := by
      simp [stopCast, hl, ha]
    refine ⟨by rw [hstop], ?_, ?_, ?_⟩
    · rw [hstop]
      simp [stopCast, lookup_filter_self]
    · rw [hstop]
      simp [stopCast, lookup_filter_self]
    · intro hrow
      rw [hstop]
      show statusOf (setStatus st.db id "completed") id = some "completed"
      rw [statusOf, find?_setStatus_self]
      obtain ⟨n0, hn0⟩ := Option.isSome_iff_exists.mp hrow
      rw [hn0]
      rfl

/-- C4 witness: on a state with one active session for n1 and its pending
row, the first stop tears down once and persists "completed", the second
stop does nothing; on the empty state a stop is a no-op. -/
theorem C4_witness :
    (stopCast ⟨[⟨"n1", "m", 0, 60, "d", "active", 1⟩],
        [("n1", ⟨"n1", "d", true⟩)], [], []⟩ "n1").teardowns = 1
    ∧ (stopCast (stopCast ⟨[⟨"n1", "m", 0, 60, "d", "active", 1⟩],
        [("n1", ⟨"n1", "d", true⟩)], [], []⟩ "n1").state "n1").teardowns = 0
    ∧ statusOf (stopCast ⟨[⟨"n1", "m", 0, 60, "d", "active", 1⟩],
        [("n1", ⟨"n1", "d", true⟩)], [], []⟩ "n1").state.db "n1" = some "completed"
    ∧ stopCast ⟨[], [], [], []⟩ "n1" = ⟨⟨[], [], [], []⟩, none, 0⟩ :=
  ⟨((C4_stopCast_idempotent ⟨[⟨"n1", "m", 0, 60, "d", "active", 1⟩],
      [("n1", ⟨"n1", "d", true⟩)], [], []⟩ "n1").2.2 ⟨"n1", "d", true⟩ rfl rfl).1,
   ((C4_stopCast_idempotent ⟨[⟨"n1", "m", 0, 60, "d", "active", 1⟩],
      [("n1", ⟨"n1", "d", true⟩)], [], []⟩ "n1").2.2 ⟨"n1", "d", true⟩ rfl rfl).2.1,
   ((C4_stopCast_idempotent ⟨[⟨"n1", "m", 0, 60, "d", "active", 1⟩],
      [("n1", ⟨"n1", "d", true⟩)], [], []⟩ "n1").2.2 ⟨"n1", "d", true⟩ rfl rfl).2.2.2
     (by decide),
   (C4_stopCast_idempotent ⟨[], [], [], []⟩ "n1").2.1 rfl⟩

/-! Claim C5. -/

theorem processActivationRow_artifacts (env : TickEnv) (now : Int)
    (st : AppState) (n : NotificationRow) :
    (processActivationRow env now st n).artifacts = st.artifacts := by
  unfold processActivationRow
  split_ifs
  · exact startCast_artifacts st n.id n.device (env.castEnv n.id)
  · rfl
  · rfl

theorem activation_foldl_no_artifact (env : TickEnv) (now : Int) (id : String) :
    ∀ (l : List NotificationRow) (st : AppState),
      st.artifacts.contains id = false →
      ((l.foldl (processActivationRow env now) st).artifacts = st.artifacts
        ∧ statusOf ((l.foldl (processActivationRow env now) st).db) id
            = statusOf st.db id) := by
  intro l
  induction l with
  | nil => exact fun st _ => ⟨rfl, rfl⟩
  | cons n t ih =>
    intro st h
    have hart : (processActivationRow env now st n).artifacts = st.artifacts :=
      processActivationRow_artifacts env now st n
    have hstat : statusOf (processActivationRow env now st n).db id
        = statusOf st.db id := by
      unfold processActivationRow
      split_ifs with h1 h2
      · have hne : n.id ≠ id := by
          intro hc
          rw [hc] at h2
          rw [h2] at h
          exact Bool.noConfusion h
        exact startCast_statusOf_ne st n.id n.device id (env.castEnv n.id) hne
      · rfl
      · rfl
    have hcar : (processActivationRow env now st n).artifacts.contains id = false := by
      rw [hart]
      exact h
    obtain ⟨ha, hs⟩ := ih (processActivationRow env now st n) hcar
    rw [List.foldl_cons]
    exact ⟨by rw [ha, hart], by rw [hs, hstat]⟩

/-- C5: the activation scan starts a session for a row only when the
playlist file for its id exists.  When the artifact for an id is absent, the
scan neither creates it nor touches the status of that id: the row is
skipped with its status left intact (so a pending row stays pending and is
re-evaluated on the next tick), and consequently no notification becomes
active without a ready artifact. -/
theorem C5_no_activation_without_artifact (env : TickEnv) (now : Int)
    (st : AppState) (id : String)
    (h : st.artifacts.contains id = false) :
    (activationScan env now st).artifacts = st.artifacts
    ∧ statusOf (activationScan env now st).db id = statusOf st.db id
    ∧ (statusOf st.db id = some "pending" →
        statusOf (activationScan env now st).db id = some "pending") := by
  obtain ⟨ha, hs⟩ := activation_foldl_no_artifact env now id
    (st.db.filter (activationFilter now)) st h
  exact ⟨ha, hs, fun hp => hs.trans hp⟩

/-- C5 witness: a pending row inside its window whose playlist is absent is
left pending by the activation scan, and the scan creates no artifact. -/
theorem C5_witness :
    (activationScan ⟨fun _ => ⟨true, true, true⟩, fun _ => PipelineOutcome.ok⟩ 10
        ⟨[⟨"n1", "m", 0, 60, "d", "pending", 1⟩], [], [], []⟩).artifacts = []
    ∧ statusOf (activationScan ⟨fun _ => ⟨true, true, true⟩, fun _ => PipelineOutcome.ok⟩ 10
        ⟨[⟨"n1", "m", 0, 60, "d", "pending", 1⟩], [], [], []⟩).db "n1"
      = some "pending" :=
  ⟨(C5_no_activation_without_artifact ⟨fun _ => ⟨true, true, true⟩, fun _ => PipelineOutcome.ok⟩
      10 ⟨[⟨"n1", "m", 0, 60, "d", "pending", 1⟩], [], [], []⟩ "n1" rfl).1,
   (C5_no_activation_without_artifact ⟨fun _ => ⟨true, true, true⟩, fun _ => PipelineOutcome.ok⟩
      10 ⟨[⟨"n1", "m", 0, 60, "d", "pending", 1⟩], [], [], []⟩ "n1" rfl).2.2 rfl⟩

/-! Claim C6. -/

/-- A notification id all of whose rows are pending with an already elapsed
end time: the situation of a row whose whole window passed while it was
still pending. -/
abbrev stalePending (id : String) (now : Int) (db : List NotificationRow) : Prop :=
  ∀ n ∈ db, n.id = id → n.status = "pending" ∧ n.end_time ≤ now

theorem setStatus_stalePending (db : List NotificationRow) (a id s : String)
    (now : Int) (hne : a ≠ id) (h : stalePending id now db) :
    stalePending id now (setStatus db a s) := by
  intro n hn hid
  obtain ⟨m, hm, rfl⟩ := List.mem_map.mp hn
  by_cases hma : m.id = a
  · exfalso
    apply hne
    rw [← hid]
    simp [hma]
  · have : (if m.id == a then { m with status := s } else m) = m := by simp [hma]
    rw [this] at hid ⊢
    exact h m hm hid

theorem startCast_stalePending (st : AppState) (a b id : String) (env : CastEnv)
    (now : Int) (hne : a ≠ id) (h : stalePending id now st.db) :
    stalePending id now ((startCast st a b env).1).db := by
  cases hl : st.activeCasts.lookup a
  · simp only [startCast, hl]
    split_ifs
    · exact h
    · exact h
    · exact h
    · exact setStatus_stalePending st.db a id "active" now hne h
  · simpa [startCast, hl] using h

theorem stopCast_stalePending (st : AppState) (a id : String) (now : Int)
    (hne : a ≠ id) (h : stalePending id now st.db) :
    stalePending id now ((stopCast st a).state).db := by
  cases hl : st.activeCasts.lookup a with
  | none => simpa [stopCast, hl] using h
  | some sess =>
    simp only [stopCast, hl]
    split_ifs
    · exact h
    · exact setStatus_stalePending st.db a id "completed" now hne h

theorem activation_foldl_stale (env : TickEnv) (now : Int) (id : String) :
    ∀ (l : List NotificationRow) (st : AppState),
      (∀ n ∈ l, n.id ≠ id) → stalePending id now st.db →
      stalePending id now ((l.foldl (processActivationRow env now) st).db) := by
  intro l
  induction l with
  | nil => exact fun st _ h => h
  | cons n t ih =>
    intro st hl h
    rw [List.foldl_cons]
    refine ih _ (fun m hm => hl m (List.mem_cons_of_mem n hm)) ?_
    have hne : n.id ≠ id := hl n (List.mem_cons_self n t)
    unfold processActivationRow
    split_ifs
    · exact startCast_stalePending st n.id n.device id (env.castEnv n.id) now hne h
    · exact h
    · exact h

theorem deactivation_foldl_stale (now : Int) (id : String) :
    ∀ (l : List NotificationRow) (st : AppState),
      (∀ n ∈ l, n.id ≠ id) → stalePending id now st.db →
      stalePending id now ((l.foldl (processDeactivationRow now) st).db) := by
  intro l
  induction l with
  | nil => exact fun st _ h => h
  | cons n t ih =>
    intro st hl h
    rw [List.foldl_cons]
    refine ih _ (fun m hm => hl m (List.mem_cons_of_mem n hm)) ?_
    have hne : n.id ≠ id := hl n (List.mem_cons_self n t)
    unfold processDeactivationRow
    split_ifs
    · exact stopCast_stalePending st n.id id now hne h
    · exact h

theorem preGen_foldl_db (outcome : String → PipelineOutcome) :
    ∀ (l : List NotificationRow) (st : AppState),
      (l.foldl (preGenRow outcome) st).db = st.db := by
  intro l
  induction l with
  | nil => exact fun st => rfl
  | cons n t ih =>
    intro st
    rw [List.foldl_cons]
    rw [ih (preGenRow outcome st n)]
    rfl

/-- C6 counterexample: a pending row whose end time has passed can still be
selected by the pre-generation query when its start time lies in the
five-minute horizon (possible exactly when start > end, which creation does
not forbid), so it is false that such a row is never selected by any scan. -/
theorem C6_counterexample :
    preGenFilter 0 ⟨"stale", "m", 60, -10, "d", "pending", 1⟩ = true
    ∧ (⟨"stale", "m", 60, -10, "d", "pending", 1⟩ : NotificationRow).status = "pending"
    ∧ (⟨"stale", "m", 60, -10, "d", "pending", 1⟩ : NotificationRow).end_time ≤ 0 := by
  decide

/-- C6, amended: a notification whose rows are pending with end time at or
before the clock reading is never selected by the activation query (it
requires now < end) nor by the deactivation query (it requires status
active); the pre-generation query may select it when start > now, but that
scan never writes the table, so no scheduler tick ever changes the status of
such a notification — it stays pending forever. -/
theorem C6_stale_pending_never_transitions (env : TickEnv) (now : Int)
    (st : AppState) (id : String) (h : stalePending id now st.db) :
    stalePending id now ((checkAndProcessNotifications env now st).db)
    ∧ (∀ n : NotificationRow, n.status = "pending" → n.end_time ≤ now →
        activationFilter now n = false ∧ deactivationFilter now n = false) := by
  constructor
  · have h1 : stalePending id now ((preGenScan env.outcome now st).db) := by
      rw [preGenScan, preGen_foldl_db]
      exact h
    have hl1 : ∀ n ∈ (preGenScan env.outcome now st).db.filter (activationFilter now),
        n.id ≠ id := by
      intro n hn hc
      obtain ⟨hmem, hf⟩ := List.mem_filter.mp hn
      obtain ⟨_, hend⟩ := h1 n hmem hc
      rw [activationFilter] at hf
      simp only [Bool.and_eq_true, decide_eq_true_eq] at hf
      omega
    have h2 : stalePending id now ((activationScan env now (preGenScan env.outcome now st)).db) := by
      rw [activationScan]
      exact activation_foldl_stale env now id _ _ hl1 h1
    have hl2 : ∀ n ∈ (activationScan env now (preGenScan env.outcome now st)).db.filter
        (deactivationFilter now), n.id ≠ id := by
      intro n hn hc
      obtain ⟨hmem, hf⟩ := List.mem_filter.mp hn
      obtain ⟨hstat, _⟩ := h2 n hmem hc
      rw [deactivationFilter, hstat] at hf
      simp at hf
    rw [checkAndProcessNotifications, deactivationScan]
    exact deactivation_foldl_stale now id _ _ hl2 h2
  · intro n hp he
    constructor
    · rw [activationFilter, hp]
      simp only [Bool.and_eq_false_iff]
      right
      simp only [decide_eq_false_iff_not]
      omega
    · rw [deactivationFilter, hp]
      simp

/-- C6 witness: one tick over a single pending row whose window (start 0,
end 50) elapsed before the clock reading 100 leaves every row for that id
pending, and that row matches neither the activation nor the deactivation
filter. -/
theorem C6_witness :
    stalePending "n1" 100 ((checkAndProcessNotifications
        ⟨fun _ => ⟨true, true, true⟩, fun _ => PipelineOutcome.ok⟩ 100
        ⟨[⟨"n1", "m", 0, 50, "d", "pending", 1⟩], [], [], []⟩).db)
    ∧ activationFilter 100 ⟨"n1", "m", 0, 50, "d", "pending", 1⟩ = false
    ∧ deactivationFilter 100 ⟨"n1", "m", 0, 50, "d", "pending", 1⟩ = false :=
  ⟨(C6_stale_pending_never_transitions
      ⟨fun _ => ⟨true, true, true⟩, fun _ => PipelineOutcome.ok⟩ 100
      ⟨[⟨"n1", "m", 0, 50, "d", "pending", 1⟩], [], [], []⟩ "n1" (by decide)).1,
   ((C6_stale_pending_never_transitions
      ⟨fun _ => ⟨true, true, true⟩, fun _ => PipelineOutcome.ok⟩ 100
      ⟨[⟨"n1", "m", 0, 50, "d", "pending", 1⟩], [], [], []⟩ "n1" (by decide)).2
      ⟨"n1", "m", 0, 50, "d", "pending", 1⟩ rfl (by decide)).1,
   ((C6_stale_pending_never_transitions
      ⟨fun _ => ⟨true, true, true⟩, fun _ => PipelineOutcome.ok⟩ 100
      ⟨[⟨"n1", "m", 0, 50, "d", "pending", 1⟩], [], [], []⟩ "n1" (by decide)).2
      ⟨"n1", "m", 0, 50, "d", "pending", 1⟩ rfl (by decide)).2⟩

/-! Claim C7. -/

/-- C7: parseTimeInUTC succeeds on every string the RFC-3339 parser accepts
and returns that instant with the location forced to UTC; it succeeds on
every space-separated zone-less string (such strings match neither
T-separated layout, hence the two none hypotheses) and interprets its wall
clock as UTC; and every successful parse carries the UTC location. -/
theorem C7_parseTimeInUTC_formats (s : TimeStr) :
    (∀ t, s.rfc3339 = some t → parseTimeInUTC s = some ⟨t.epoch, "UTC"⟩)
    ∧ (s.rfc3339 = none → s.zLayout = none →
        ∀ w, s.spaceLayout = some w → parseTimeInUTC s = some ⟨w, "UTC"⟩)
    ∧ (∀ t, parseTimeInUTC s = some t → t.loc = "UTC") := by
  obtain ⟨r, z, sp⟩ := s
  refine ⟨?_, ?_, ?_⟩
  · intro t ht
    cases ht
    rfl
  · intro hr hz w hw
    cases hr
    cases hz
    cases hw
    rfl
  · intro t ht
    cases r with
    | some tr => cases ht; rfl
    | none =>
      cases z with
      | some tz => cases ht; rfl
      | none =>
        cases sp with
        | some w => cases ht; rfl
        | none => cases ht

/-- C7 witness: a string parsed by the RFC-3339 layout at an offset, and a
zone-less space-separated string, both land on the expected UTC value. -/
theorem C7_witness :
    parseTimeInUTC ⟨some ⟨30, "+02:00"⟩, none, none⟩ = some ⟨30, "UTC"⟩
    ∧ parseTimeInUTC ⟨none, none, some 45⟩ = some ⟨45, "UTC"⟩ :=
  ⟨(C7_parseTimeInUTC_formats ⟨some ⟨30, "+02:00"⟩, none, none⟩).1 ⟨30, "+02:00"⟩ rfl,
   (C7_parseTimeInUTC_formats ⟨none, none, some 45⟩).2.1 rfl rfl 45 rfl⟩

/-! Claim C8. -/

/-- C8 counterexample: for a 50-second window (start 0, end 50) and a
7-second narration, the generated artifact lasts 57 seconds, not end minus
start: the command appends the silence after the whole narration and nothing
truncates the output, so the total duration depends on the narration
length. -/
theorem C8_counterexample :
    videoDuration 0 50 = 50
    ∧ (generateNotificationVideo "img" "n1" (videoDuration 0 50) "a.mp3"
          7).totalSeconds = 57 := by
  decide

/-- C8, amended: the duration handed to media-artifact generation is end
minus start in whole seconds with the 10-second floor on non-positive values
(the source condition duration < 1 coincides with non-positivity on
integers), and the video stream loops the image for exactly that duration;
without narration the total artifact duration equals it, but with narration
the ffmpeg command appends durationSeconds of silence after the whole
narration and sets no output -t and no -shortest, so the total artifact
duration is the narration length plus end minus start, not end minus start
regardless of narration length. -/
theorem C8_artifact_duration_with_narration (s e narr : Int)
    (imagePath notificationID audioPath : String) (hn : 0 ≤ narr) :
    videoDuration s e = (if e - s ≤ 0 then 10 else e - s)
    ∧ (generateNotificationVideo imagePath notificationID (videoDuration s e)
          audioPath narr).videoStreamSeconds = videoDuration s e
    ∧ (generateNotificationVideo imagePath notificationID (videoDuration s e)
          "" narr).totalSeconds = videoDuration s e
    ∧ (audioPath ≠ "" →
        (generateNotificationVideo imagePath notificationID (videoDuration s e)
            audioPath narr).totalSeconds = narr + videoDuration s e) := by
  refine ⟨?_, ?_, ?_, ?_⟩
  · unfold videoDuration
    by_cases h : e - s ≤ 0
    · rw [if_pos (by omega), if_pos h]
    · rw [if_neg (by omega), if_neg h]
  · unfold generateNotificationVideo
    split_ifs <;> rfl
  · rfl
  · intro ha
    unfold generateNotificationVideo
    rw [if_neg (by simp [ha])]
    exact max_eq_right (le_add_of_nonneg_left hn)

/-- C8 witness: the amended theorem evaluated for a 50-second window and a
7-second narration, with and without audio. -/
theorem C8_witness :
    (generateNotificationVideo "img" "n1" (videoDuration 0 50) "" 7).totalSeconds
      = videoDuration 0 50
    ∧ (generateNotificationVideo "img" "n1" (videoDuration 0 50) "a.mp3"
          7).totalSeconds = 7 + videoDuration 0 50 :=
  ⟨(C8_artifact_duration_with_narration 0 50 7 "img" "n1" "a.mp3" (by decide)).2.2.1,
   (C8_artifact_duration_with_narration 0 50 7 "img" "n1" "a.mp3" (by decide)).2.2.2
     (by decide)⟩

/-! Claim C9. -/

/-- C9 counterexample: on the successful start path, the 5-second mDNS
device discovery runs while the session manager lock CastMutex is held, so
it is false that the locks are held only long enough to check or flip
flags. -/
theorem C9_counterexample :
    heldViolation "CastMutex" (startCastTrace false ⟨true, true, true⟩) 0 = true
    ∧ (startCastTrace false ⟨true, true, true⟩).contains .deviceDiscovery = true := by
  decide

/-- C9, amended: the generation deduplicator lock VideoGenMutex is indeed
held only around the flag check/insert/delete, never across the pipeline
work; but the session manager lock CastMutex is held for the entire body of
startCast and stopCast — every non-early-error start holds it across device
discovery, and every real stop holds it across the settle delay — and both
calls take this single global lock from first event to last, so start and
stop invocations serialize even for different notification ids. -/
theorem C9_casts_serialize (alreadyActive hasSession inprog : Bool)
    (env : CastEnv) :
    heldViolation "VideoGenMutex" (preGenTrace inprog) 0 = false
    ∧ (alreadyActive = false →
        heldViolation "CastMutex" (startCastTrace alreadyActive env) 0 = true)
    ∧ (hasSession = true →
        heldViolation "CastMutex" (stopCastTrace hasSession) 0 = true)
    ∧ (startCastTrace alreadyActive env).head? = some (.lockAcquire "CastMutex")
    ∧ (startCastTrace alreadyActive env).getLast? = some (.lockRelease "CastMutex")
    ∧ (stopCastTrace hasSession).head? = some (.lockAcquire "CastMutex")
    ∧ (stopCastTrace hasSession).getLast? = some (.lockRelease "CastMutex") := by
  obtain ⟨df, io, po⟩ := env
  cases alreadyActive <;> cases hasSession <;> cases inprog <;>
    cases df <;> cases io <;> cases po <;> decide

/-- C9 witness: the amended theorem evaluated on the successful start, the
real stop, and a fresh generation job. -/
theorem C9_witness :
    heldViolation "VideoGenMutex" (preGenTrace false) 0 = false
    ∧ heldViolation "CastMutex" (startCastTrace false ⟨true, true, true⟩) 0 = true
    ∧ heldViolation "CastMutex" (stopCastTrace true) 0 = true :=
  ⟨(C9_casts_serialize false true false ⟨true, true, true⟩).1,
   (C9_casts_serialize false true false ⟨true, true, true⟩).2.1 rfl,
   (C9_casts_serialize false true false ⟨true, true, true⟩).2.2.1 rfl⟩

/-! Claim C10. -/

/-- C10: a createNotification request with valid timestamps and a
repeat_count below 1 (absent fields decode to 0, and negatives are allowed
by the decoder) is not rejected; the persisted row carries repeat_count
exactly 1. -/
theorem C10_repeat_count_clamped (newId : String) (req : CreateRequest)
    (s e : Int) (hs : req.start_time = some s) (he : req.end_time = some e)
    (hr : req.repeat_count < 1) :
    createNotification newId req
      = .created { id := newId, message := req.message, start_time := s,
                   end_time := e, device := req.device, status := "pending",
                   repeat_count := 1 } := by
  simp [createNotification, hs, he, if_pos hr]

/-- C10 witness: a request with repeat_count -3 is stored with
repeat_count 1. -/
theorem C10_witness :
    createNotification "n1" ⟨"m", "d", some 0, some 60, -3⟩
      = .created ⟨"n1", "m", 0, 60, "d", "pending", 1⟩ :=
  C10_repeat_count_clamped "n1" ⟨"m", "d", some 0, some 60, -3⟩ 0 60 rfl rfl
    (by decide)

end MeetingCaster
